import Mathlib

/-!
# ai-finder: the search page `src/pages/index.js`

A shallow embedding of the page component `HomePage` and of `getServerSideProps`.

* React state (`searchQuery`, `aiData`) is an explicit record, together with the lines
  written to the console; every handler of the source is a function on that record.
* `axios.get` is an input: the request either resolves with a response or rejects with
  an error.
* `fuse.js` is a dependency of the page and not part of its source. Where a statement
  holds for every behaviour of the library, the library is a parameter (`FuseLib`).
  Statements about what the library itself returns are made against `Fuse.search`, a
  definition that follows the wording of the specification and leaves to a parameter
  (`Library`) what the specification leaves to the library.
-/

namespace AiFinder

/-! ## Data model -/

/-- One catalog entry, as the page reads it: `ai.name`, `ai.description`, `ai.image`,
`ai.tags` and `ai.url` (the fields used by `AICard`). -/
structure Item where
  name : String
  description : String
  image : String
  tags : List String
  url : String
  deriving DecidableEq, Repr

/-- The value of `response.data`, which is also what `aiData` holds. The page never
inspects it before storing it, so it is either an array of items or any other body. -/
inductive Data where
  | array (items : List Item)
  | other (body : String)
  deriving DecidableEq, Repr

/-- The response object of a resolved `axios.get`; only `data` is read. -/
structure Response where
  data : Data
  deriving DecidableEq, Repr

/-- The second argument of `new Fuse(aiData, ...)`. -/
structure FuseOptions where
  keys : List String
  threshold : ℚ
  deriving DecidableEq

/-- One element of the array returned by `fuse.search`: the page reads `result.item`;
`refIndex` is the position of the item in the indexed array. -/
structure FuseResult where
  item : Item
  refIndex : Nat
  deriving DecidableEq, Repr

/-- The library as the page uses it: `new Fuse(docs, options).search(pattern)`.
A new index is built from the array it is given at every call. -/
abbrev FuseLib := FuseOptions → List Item → String → List FuseResult

/-! ## `HomePage` -/

/-- Options literal of lines 29-32: `keys: ["name", "description", "tags"]` and
`threshold: 0.4` (the decimal `0.4` is read as the rational `2/5`). -/
def fuseOptions : FuseOptions :=
  { keys := ["name", "description", "tags"], threshold := 2 / 5 }

/-- Lines 34-36: `searchQuery ? fuse.search(searchQuery).map((result) => result.item) : aiData`,
where `fuse` is the index built on line 29 from the current `aiData`.
A string is truthy exactly when it is not the empty string. -/
def filteredAIs (lib : FuseLib) (aiData : List Item) (searchQuery : String) : List Item :=
  if searchQuery ≠ "" then
    (lib fuseOptions aiData searchQuery).map (fun result => result.item)
  else
    aiData

/-- A line written with `console.error(label, error)`. -/
structure LogLine where
  label : String
  error : String
  deriving DecidableEq, Repr

/-- State of a mounted `HomePage`: the two `useState` cells and the console. -/
structure State where
  searchQuery : String
  aiData : Data
  console : List LogLine
  deriving DecidableEq, Repr

/-- Props of `HomePage`. -/
structure Props where
  initialAIData : Data
  deriving DecidableEq, Repr

/-- Lines 11-12: `useState("")` and `useState(initialAIData)`. -/
def HomePage.init (props : Props) : State :=
  { searchQuery := "", aiData := props.initialAIData, console := [] }

/-- Lines 25-27: `handleSearch = (value) => setSearchQuery(value)`. -/
def handleSearch (value : String) (s : State) : State :=
  { s with searchQuery := value }

/-- Lines 17-19: the `.then` handler, `setAIData(response.data)`. -/
def onFulfilled (response : Response) (s : State) : State :=
  { s with aiData := response.data }

/-- Lines 20-22: the `.catch` handler, `console.error("Error fetching AI data:", error)`. -/
def onRejected (error : String) (s : State) : State :=
  { s with console := s.console ++ [{ label := "Error fetching AI data:", error := error }] }

/-- What can happen to a mounted page: the input changes, or the request of the
effect settles. -/
inductive Event where
  | change (value : String)
  | refreshFulfilled (response : Response)
  | refreshRejected (error : String)
  deriving DecidableEq, Repr

/-- One event handled by the handler the source registers for it. -/
def step (s : State) : Event → State
  | .change value => handleSearch value s
  | .refreshFulfilled response => onFulfilled response s
  | .refreshRejected error => onRejected error s

/-- A sequence of events handled in order. -/
def run (s : State) (events : List Event) : State :=
  events.foldl step s

/-- A child of the result grid (lines 55-66): a card, or the empty-state block. -/
inductive GridChild where
  | AICard (key : Nat) (ai : Item)
  | emptyState (message : String)
  deriving DecidableEq, Repr

/-- The empty-state block of lines 59-64. -/
def emptyView : GridChild :=
  .emptyState "No AI models match your criteria."

/-- Lines 56-65: `filteredAIs.length > 0 ? filteredAIs.map((ai, index) => <AICard key={index} ai={ai} />) : (empty state)`. -/
def resultGrid (filtered : List Item) : List GridChild :=
  if filtered.length > 0 then
    filtered.enum.map (fun p => GridChild.AICard p.1 p.2)
  else
    [emptyView]

/-- The sequence a render displays. Rendering is modelled for an `aiData` that is an
array; for any other value the index constructor and `.map` are applied to a
non-array, which is outside the model (`none`). -/
def displayed (lib : FuseLib) (s : State) : Option (List Item) :=
  match s.aiData with
  | .array items => some (filteredAIs lib items s.searchQuery)
  | .other _ => none

/-- The children of the result grid of a render. -/
def HomePage.render (lib : FuseLib) (s : State) : Option (List GridChild) :=
  (displayed lib s).map resultGrid

/-- The items shown by the cards of a grid, in order. -/
def cardItems (grid : List GridChild) : List Item :=
  grid.filterMap fun
    | .AICard _ ai => some ai
    | .emptyState _ => none

/-! ## `getServerSideProps` -/

/-- Lines 142-159: the `try` branch returns `response.data` as `initialAIData`; the
`catch` branch logs and returns the empty array. The result is the returned props
and the lines logged. -/
def getServerSideProps (request : Except String Response) : Props × List LogLine :=
  match request with
  | .ok response => ({ initialAIData := response.data }, [])
  | .error error =>
    ({ initialAIData := .array [] }, [{ label := "Error fetching AI data:", error := error }])

/-! ## Reference semantics of a sequence of events -/

/-- The value a change event carries. -/
def Event.changeValue? : Event → Option String
  | .change value => some value
  | _ => none

/-- The data a fulfilled refresh carries. -/
def Event.refreshData? : Event → Option Data
  | .refreshFulfilled response => some response.data
  | _ => none

/-- The value of the latest change event, `""` when there is none. -/
def latestQuery (events : List Event) : String :=
  ((events.filterMap Event.changeValue?).getLast?).getD ""

/-- The data of the latest fulfilled refresh, the initial snapshot when there is none. -/
def latestData (initial : Data) (events : List Event) : Data :=
  ((events.filterMap Event.refreshData?).getLast?).getD initial

/-! ## The fuzzy index

`fuse.js` is not part of the source of the page. The definitions of this section follow
the specification's description of the index (section 4.1 and the glossary); what the
specification leaves to the library is a parameter (`Library`). -/

/-- Modelled from the spec: the fuzzy-matching library (`fuse.js`, whose code is not
under `src/`), as far as the spec describes it.

* `dissim q t` is the dissimilarity score of the text `t` against the query `q`, on the
  scale from `0.0` (exact match only) to `1.0` (match everything); a lower score is a
  closer match, and a text identical to the query scores `0`.
* `total threshold q texts` is the dissimilarity by which an item is ranked, for the
  query `q` and the texts of its configured fields. The spec does not say how the scores
  of the fields of an item combine, so the combination is left to the library.
* `lowerOther` is the part of the library's case folding that concerns the letters
  other than `A`-`Z`. -/
structure Library where
  lowerOther : String → String
  dissim : String → String → ℚ
  total : ℚ → String → List String → ℚ
  nonneg : ∀ q t, 0 ≤ dissim q t
  le_one : ∀ q t, dissim q t ≤ 1
  exact : ∀ t, dissim t t = 0

/-- The letters `A`-`Z` of a string folded to `a`-`z`. -/
def asciiLower (s : String) : String :=
  ⟨s.data.map Char.toLower⟩

/-- Modelled from the spec: the case folding behind "case-insensitive" (done inside
`fuse.js`, not under `src/`): the letters `A`-`Z` are folded to `a`-`z`, the other
letters as the library folds them. -/
def lower (lib : Library) (s : String) : String :=
  lib.lowerOther (asciiLower s)

/-- Modelled from the spec: the texts of an item under a configured key of the index
(read inside `fuse.js`, not under `src/`); `tags` is a sequence matched elementwise. -/
def Item.field (item : Item) (key : String) : List String :=
  if key = "name" then [item.name]
  else if key = "description" then [item.description]
  else if key = "image" then [item.image]
  else if key = "tags" then item.tags
  else if key = "url" then [item.url]
  else []

/-- Modelled from the spec: the texts of the configured fields of an item, without
regard to case (read inside `fuse.js`, not under `src/`). -/
def fieldTexts (lib : Library) (opts : FuseOptions) (item : Item) : List String :=
  (opts.keys.flatMap item.field).map (lower lib)

/-- Modelled from the spec: the scores of the query against every text of the
configured fields of an item (computed inside `fuse.js`, not under `src/`). -/
def fieldScores (lib : Library) (opts : FuseOptions) (pattern : String) (item : Item) : List ℚ :=
  (fieldTexts lib opts item).map (lib.dissim (lower lib pattern))

/-- Modelled from the spec: whether an item matches (decided inside `fuse.js`, not
under `src/`). The threshold is the maximum score at which a candidate is still
considered a match (glossary): at threshold `0.0` only an exact match passes, at `1.0`
everything does. An item all of whose configured fields fail the threshold is
excluded. -/
def isMatch (lib : Library) (opts : FuseOptions) (pattern : String) (item : Item) : Bool :=
  (fieldScores lib opts pattern item).any (fun s => decide (s ≤ opts.threshold))

/-- Modelled from the spec: the dissimilarity by which a matching item is ranked
(computed inside `fuse.js`, not under `src/`). -/
def itemScore (lib : Library) (opts : FuseOptions) (pattern : String) (item : Item) : ℚ :=
  lib.total opts.threshold (lower lib pattern) (fieldTexts lib opts item)

/-- Modelled from the spec: a matching item with its score, before ranking (a record
internal to `fuse.js`, not under `src/`). -/
structure Hit where
  score : ℚ
  result : FuseResult

/-- Modelled from the spec: the candidate at one position of the indexed array
(computed inside `fuse.js`, not under `src/`). -/
def hit? (lib : Library) (opts : FuseOptions) (pattern : String) (p : Nat × Item) : Option Hit :=
  if isMatch lib opts pattern p.2 then
    some { score := itemScore lib opts pattern p.2, result := { item := p.2, refIndex := p.1 } }
  else
    none

/-- Modelled from the spec: the matching items of the indexed array, in the order of
the array (computed inside `fuse.js`, not under `src/`). -/
def candidates (lib : Library) (opts : FuseOptions) (docs : List Item) (pattern : String) :
    List Hit :=
  docs.enum.filterMap (hit? lib opts pattern)

/-- Modelled from the spec: `new Fuse(docs, options).search(pattern)` (the code of
`fuse.js` is not under `src/`). The matching items, by ascending dissimilarity; the
sort is stable, so equal scores keep the order of the indexed array. -/
def Fuse.search (lib : Library) : FuseLib := fun opts docs pattern =>
  ((candidates lib opts docs pattern).insertionSort (fun a b => a.score ≤ b.score)).map
    (fun h => h.result)

/-- The order of the ranking: a lower score first, and for equal scores the lower
position in the indexed array first. -/
def ranked (s₁ : ℚ) (i₁ : Nat) (s₂ : ℚ) (i₂ : Nat) : Prop :=
  s₁ < s₂ ∨ (s₁ = s₂ ∧ i₁ < i₂)

/-- The filter of the page over the modelled index. -/
def filter (lib : Library) (C : List Item) (q : String) : List Item :=
  filteredAIs (Fuse.search lib) C q

/-! ## A concrete library and catalog entries for the examples -/

/-- Number of positions of the pattern at which the text has another character or
none. -/
def mismatches : List Char → List Char → Nat
  | [], _ => 0
  | _ :: q, [] => 1 + mismatches q []
  | a :: q, b :: t => (if a = b then 0 else 1) + mismatches q t

/-- The share of the positions of the pattern at which the text differs. -/
def mismatchShare (q t : String) : ℚ :=
  (mismatches q.data t.data : ℚ) / q.data.length

/-- The weight of one field in the product that ranks an item of the example library:
the score of a matching field, an exact match counting as `2⁻⁵²`; a field that does not
match has no weight. -/
def fieldWeight (threshold : ℚ) (q t : String) : ℚ :=
  if mismatchShare q t ≤ threshold then
    (if mismatchShare q t = 0 then 1 / 2 ^ 52 else mismatchShare q t)
  else 1

/-- Folding of `É` to `é`. -/
def lowerAccent (s : String) : String :=
  ⟨s.data.map (fun c => if c = 'É' then 'é' else c)⟩

/-- An example library: a field is scored by the share of the positions of the pattern
at which it differs, an item is ranked by the product of the scores of its matching
fields, and `É` is folded to `é`. -/
def positional : Library where
  lowerOther := lowerAccent
  dissim := mismatchShare
  total threshold q texts := (texts.map (fieldWeight threshold q)).prod
  nonneg q t := by unfold mismatchShare; positivity
  le_one q t := by
    have h : ∀ (a b : List Char), mismatches a b ≤ a.length := by
      intro a
      induction a with
      | nil => intro b; simp [mismatches]
      | cons x a ih =>
        intro b
        cases b with
        | nil => have := ih []; simp [mismatches]; omega
        | cons y b => have := ih b; simp only [mismatches, List.length_cons]; split <;> omega
    unfold mismatchShare
    apply div_le_one_of_le₀
    · exact_mod_cast h q.data t.data
    · positivity
  exact t := by
    have h : ∀ a : List Char, mismatches a a = 0 := by
      intro a
      induction a with
      | nil => rfl
      | cons x a ih => simp [mismatches, ih]
    simp [mismatchShare, h]

/-- An entry called `chat`. -/
def chatItem : Item :=
  { name := "chat", description := "", image := "/chat.png", tags := [], url := "/chat" }

/-- An entry called `chap`, one character away from `chat`. -/
def chapItem : Item :=
  { name := "chap", description := "", image := "/chap.png", tags := [], url := "/chap" }

/-- An entry called `chad`, one character away from `chat`. -/
def chadItem : Item :=
  { name := "chad", description := "", image := "/chad.png", tags := [], url := "/chad" }

/-- An entry whose name, description and twenty-eight tags are all `chap`. -/
def chapTags : Item :=
  { name := "chap", description := "chap", image := "/tags.png",
    tags := List.replicate 28 "chap", url := "/tags" }

/-- An entry called `abcxy`, two characters out of five away from `abcde`. -/
def boundaryItem : Item :=
  { name := "abcxy", description := "", image := "/b.png", tags := [], url := "/b" }

/-- An entry called `É`. -/
def accentItem : Item :=
  { name := "É", description := "", image := "/e.png", tags := [], url := "/e" }

/-- The entry of scenario 1. -/
def chatBot : Item :=
  { name := "ChatBot", description := "conversational AI", image := "", tags := ["chat", "nlp"],
    url := "" }

/-! ## The fuzzy index: matching -/

theorem isMatch_iff {lib : Library} {opts : FuseOptions} {q : String} {item : Item} :
    isMatch lib opts q item = true ↔ ∃ x ∈ fieldScores lib opts q item, x ≤ opts.threshold := by
  simp [isMatch]

theorem fieldScores_fuseOptions (lib : Library) (q : String) (item : Item) :
    fieldScores lib fuseOptions q item
      = lib.dissim (lower lib q) (lower lib item.name) ::
          lib.dissim (lower lib q) (lower lib item.description) ::
          item.tags.map (fun tag => lib.dissim (lower lib q) (lower lib tag)) := by
  simp [fieldScores, fieldTexts, fuseOptions, Item.field]

theorem isMatch_fuseOptions (lib : Library) (q : String) (item : Item) :
    isMatch lib fuseOptions q item = true ↔
      (lib.dissim (lower lib q) (lower lib item.name) ≤ 2 / 5 ∨
        lib.dissim (lower lib q) (lower lib item.description) ≤ 2 / 5 ∨
        ∃ tag ∈ item.tags, lib.dissim (lower lib q) (lower lib tag) ≤ 2 / 5) := by
  rw [isMatch_iff, fieldScores_fuseOptions]
  simp [fuseOptions]

theorem hit?_congr_lower (lib : Library) (opts : FuseOptions) {q₁ q₂ : String}
    (h : lower lib q₁ = lower lib q₂) : hit? lib opts q₁ = hit? lib opts q₂ := by
  funext p
  simp [hit?, isMatch, itemScore, fieldScores, h]

theorem isMatch_chatbot (lib : Library) : isMatch lib fuseOptions "chatbot" chatBot = true := by
  rw [isMatch_fuseOptions]
  left
  have h : lower lib chatBot.name = lower lib "chatbot" := by
    have h0 : asciiLower chatBot.name = asciiLower "chatbot" := by decide
    simp [lower, h0]
  rw [h, lib.exact]
  norm_num

/-! ## The fuzzy index: candidates and ranking -/

theorem mem_candidates {lib : Library} {opts : FuseOptions} {docs : List Item} {q : String}
    {h : Hit} :
    h ∈ candidates lib opts docs q ↔
      docs[h.result.refIndex]? = some h.result.item ∧
        isMatch lib opts q h.result.item = true ∧
        h.score = itemScore lib opts q h.result.item := by
  simp only [candidates, List.mem_filterMap, hit?, Prod.exists, List.mk_mem_enum_iff_getElem?]
  constructor
  · rintro ⟨i, item, hi, hh⟩
    by_cases hm : isMatch lib opts q item = true
    · rw [if_pos hm] at hh
      cases hh
      exact ⟨hi, hm, rfl⟩
    · rw [if_neg hm] at hh
      cases hh
  · rintro ⟨hi, hm, hs⟩
    refine ⟨h.result.refIndex, h.result.item, hi, ?_⟩
    rw [if_pos hm, ← hs]

theorem filterMap_hit_pairs (lib : Library) (opts : FuseOptions) (q : String)
    (l : List (Nat × Item)) :
    (l.filterMap (hit? lib opts q)).map (fun h => (h.result.refIndex, h.result.item))
      = l.filter (fun p => isMatch lib opts q p.2) := by
  induction l with
  | nil => rfl
  | cons p l ih =>
    by_cases hm : isMatch lib opts q p.2 = true
    · simp [List.filterMap_cons, List.filter_cons, hit?, hm, ih]
    · simp [List.filterMap_cons, List.filter_cons, hit?, hm, ih]

theorem candidates_pairs (lib : Library) (opts : FuseOptions) (docs : List Item) (q : String) :
    (candidates lib opts docs q).map (fun h => (h.result.refIndex, h.result.item))
      = docs.enum.filter (fun p => isMatch lib opts q p.2) :=
  filterMap_hit_pairs lib opts q docs.enum

theorem search_pairs_perm (lib : Library) (opts : FuseOptions) (docs : List Item) (q : String) :
    List.Perm ((Fuse.search lib opts docs q).map (fun r => (r.refIndex, r.item)))
      (docs.enum.filter (fun p => isMatch lib opts q p.2)) := by
  rw [← candidates_pairs]
  simp only [Fuse.search, List.map_map]
  exact (List.perm_insertionSort _ _).map _

theorem enum_pairwise_fst (docs : List Item) :
    docs.enum.Pairwise (fun a b => a.1 < b.1) := by
  have h : (docs.enum.map Prod.fst).Pairwise (fun a b => a < b) := by
    rw [List.enum_map_fst]
    exact List.pairwise_lt_range _
  exact (List.pairwise_map.mp h)

theorem candidates_pairwise (lib : Library) (opts : FuseOptions) (docs : List Item)
    (q : String) :
    (candidates lib opts docs q).Pairwise
      (fun a b => a.result.refIndex < b.result.refIndex) := by
  have hsub : List.Sublist
      (docs.enum.filter (fun p => isMatch lib opts q p.2)) docs.enum :=
    List.filter_sublist _
  have h := (enum_pairwise_fst docs).sublist hsub
  rw [← candidates_pairs, List.pairwise_map] at h
  exact h

theorem orderedInsert_ranked (a : Hit) (l : List Hit)
    (hidx : ∀ b ∈ l, a.result.refIndex < b.result.refIndex)
    (hl : l.Pairwise (fun x y => ranked x.score x.result.refIndex y.score y.result.refIndex)) :
    (l.orderedInsert (fun x y => x.score ≤ y.score) a).Pairwise
      (fun x y => ranked x.score x.result.refIndex y.score y.result.refIndex) := by
  induction l with
  | nil => simp
  | cons b l ih =>
    rw [List.pairwise_cons] at hl
    by_cases hab : a.score ≤ b.score
    · rw [List.orderedInsert, if_pos hab]
      refine List.Pairwise.cons ?_ (List.Pairwise.cons hl.1 hl.2)
      intro c hc
      have hic := hidx c hc
      have hsc : a.score ≤ c.score := by
        rcases List.mem_cons.mp hc with rfl | hc'
        · exact hab
        · rcases hl.1 c hc' with h | h
          · exact le_trans hab (le_of_lt h)
          · exact h.1 ▸ hab
      rcases lt_or_eq_of_le hsc with h | h
      · exact Or.inl h
      · exact Or.inr ⟨h, hic⟩
    · rw [List.orderedInsert, if_neg hab]
      refine List.Pairwise.cons ?_ (ih (fun c hc => hidx c (List.mem_cons_of_mem _ hc)) hl.2)
      intro c hc
      rcases (List.mem_orderedInsert _).mp hc with rfl | hc'
      · exact Or.inl (lt_of_not_le hab)
      · exact hl.1 c hc'

theorem insertionSort_ranked (l : List Hit)
    (hl : l.Pairwise (fun a b => a.result.refIndex < b.result.refIndex)) :
    (l.insertionSort (fun x y => x.score ≤ y.score)).Pairwise
      (fun x y => ranked x.score x.result.refIndex y.score y.result.refIndex) := by
  induction l with
  | nil => simp
  | cons a l ih =>
    rw [List.pairwise_cons] at hl
    rw [List.insertionSort]
    exact orderedInsert_ranked a _
      (fun b hb => hl.1 b ((List.mem_insertionSort _).mp hb)) (ih hl.2)

theorem search_ranked (lib : Library) (opts : FuseOptions) (docs : List Item) (q : String) :
    (Fuse.search lib opts docs q).Pairwise (fun r₁ r₂ =>
      ranked (itemScore lib opts q r₁.item) r₁.refIndex
        (itemScore lib opts q r₂.item) r₂.refIndex) := by
  rw [Fuse.search, List.pairwise_map]
  refine (insertionSort_ranked _ (candidates_pairwise lib opts docs q)).imp_of_mem ?_
  intro a b ha hb hab
  have ha' := (mem_candidates.mp ((List.mem_insertionSort _).mp ha)).2.2
  have hb' := (mem_candidates.mp ((List.mem_insertionSort _).mp hb)).2.2
  rw [← ha', ← hb']
  exact hab

theorem mem_search {lib : Library} {opts : FuseOptions} {docs : List Item} {q : String}
    {r : FuseResult} :
    r ∈ Fuse.search lib opts docs q ↔
      docs[r.refIndex]? = some r.item ∧ isMatch lib opts q r.item = true := by
  simp only [Fuse.search, List.mem_map, List.mem_insertionSort, mem_candidates]
  constructor
  · rintro ⟨h, ⟨hi, hm, _⟩, rfl⟩
    exact ⟨hi, hm⟩
  · rintro ⟨hi, hm⟩
    exact ⟨{ score := itemScore lib opts q r.item, result := r }, ⟨hi, hm, rfl⟩, rfl⟩

theorem mem_filter_iff {lib : Library} {C : List Item} {q : String} (hq : q ≠ "") {item : Item} :
    item ∈ filter lib C q ↔ item ∈ C ∧ isMatch lib fuseOptions q item = true := by
  simp only [filter, filteredAIs, hq, ne_eq, not_false_eq_true, if_true, List.mem_map, mem_search]
  constructor
  · rintro ⟨r, ⟨hi, hs⟩, rfl⟩
    exact ⟨List.getElem?_mem hi, hs⟩
  · rintro ⟨hmem, hs⟩
    obtain ⟨i, hi⟩ := List.getElem?_of_mem hmem
    exact ⟨{ item := item, refIndex := i }, ⟨hi, hs⟩, rfl⟩

theorem search_congr_lower (lib : Library) (opts : FuseOptions) (docs : List Item)
    {q₁ q₂ : String} (h : lower lib q₁ = lower lib q₂) :
    Fuse.search lib opts docs q₁ = Fuse.search lib opts docs q₂ := by
  simp [Fuse.search, candidates, hit?_congr_lower lib opts h]

theorem search_lower_then_higher (lib : Library) (opts : FuseOptions) (q : String) (A B : Item)
    (hA : isMatch lib opts q A = true) (hB : isMatch lib opts q B = true)
    (hlt : itemScore lib opts q A < itemScore lib opts q B) :
    Fuse.search lib opts [A, B] q = [{ item := A, refIndex := 0 }, { item := B, refIndex := 1 }] ∧
      Fuse.search lib opts [B, A] q
        = [{ item := A, refIndex := 1 }, { item := B, refIndex := 0 }] := by
  have h1 : itemScore lib opts q A ≤ itemScore lib opts q B := le_of_lt hlt
  have h2 : ¬ itemScore lib opts q B ≤ itemScore lib opts q A := not_le.mpr hlt
  constructor
  · simp [Fuse.search, candidates, List.enum, List.enumFrom, hit?, hA, hB, List.insertionSort,
      List.orderedInsert, h1]
  · simp [Fuse.search, candidates, List.enum, List.enumFrom, hit?, hA, hB, List.insertionSort,
      List.orderedInsert, h2]

theorem search_singleton (lib : Library) (opts : FuseOptions) (q : String) (A : Item)
    (hA : isMatch lib opts q A = true) :
    Fuse.search lib opts [A] q = [{ item := A, refIndex := 0 }] := by
  simp [Fuse.search, candidates, List.enum, List.enumFrom, hit?, hA, List.insertionSort,
    List.orderedInsert]

/-! ## The fuzzy index: the example library on the example entries -/

theorem mismatchShare_chat_chat : mismatchShare "chat" "chat" = 0 := by
  simp [mismatchShare, mismatches]

theorem mismatchShare_chat_chap : mismatchShare "chat" "chap" = 1 / 4 := by
  have h1 : "chat".length = 4 := by decide
  simp [mismatchShare, mismatches, h1]

theorem mismatchShare_chat_chad : mismatchShare "chat" "chad" = 1 / 4 := by
  have h1 : "chat".length = 4 := by decide
  simp [mismatchShare, mismatches, h1]

theorem mismatchShare_chat_blank : mismatchShare "chat" "" = 1 := by
  have h1 : "chat".length = 4 := by decide
  simp [mismatchShare, mismatches, h1]

theorem mismatchShare_boundary : mismatchShare "abcde" "abcxy" = 2 / 5 := by
  have h1 : "abcde".length = 5 := by decide
  simp [mismatchShare, mismatches, h1]

theorem mismatchShare_boundary_blank : mismatchShare "abcde" "" = 1 := by
  have h1 : "abcde".length = 5 := by decide
  simp [mismatchShare, mismatches, h1]

theorem fieldWeight_chat_chat : fieldWeight (2 / 5) "chat" "chat" = 1 / 2 ^ 52 := by
  rw [fieldWeight, mismatchShare_chat_chat]
  norm_num

theorem fieldWeight_chat_chap : fieldWeight (2 / 5) "chat" "chap" = 1 / 4 := by
  rw [fieldWeight, mismatchShare_chat_chap]
  norm_num

theorem fieldWeight_chat_chad : fieldWeight (2 / 5) "chat" "chad" = 1 / 4 := by
  rw [fieldWeight, mismatchShare_chat_chad]
  norm_num

theorem fieldWeight_chat_blank : fieldWeight (2 / 5) "chat" "" = 1 := by
  rw [fieldWeight, mismatchShare_chat_blank]
  norm_num

theorem lower_chat : lower positional "chat" = "chat" := by decide

theorem fieldTexts_chatItem : fieldTexts positional fuseOptions chatItem = ["chat", ""] := by
  decide

theorem fieldTexts_chapItem : fieldTexts positional fuseOptions chapItem = ["chap", ""] := by
  decide

theorem fieldTexts_chadItem : fieldTexts positional fuseOptions chadItem = ["chad", ""] := by
  decide

theorem fieldTexts_chapTags :
    fieldTexts positional fuseOptions chapTags = List.replicate 30 "chap" := by
  decide

theorem isMatch_chatItem : isMatch positional fuseOptions "chat" chatItem = true := by
  rw [isMatch_iff]
  refine ⟨0, ?_, by norm_num [fuseOptions]⟩
  rw [fieldScores, fieldTexts_chatItem, lower_chat]
  simp [positional, mismatchShare_chat_chat]

theorem isMatch_chapItem : isMatch positional fuseOptions "chat" chapItem = true := by
  rw [isMatch_iff]
  refine ⟨1 / 4, ?_, by norm_num [fuseOptions]⟩
  rw [fieldScores, fieldTexts_chapItem, lower_chat]
  simp [positional, mismatchShare_chat_chap]

theorem isMatch_chadItem : isMatch positional fuseOptions "chat" chadItem = true := by
  rw [isMatch_iff]
  refine ⟨1 / 4, ?_, by norm_num [fuseOptions]⟩
  rw [fieldScores, fieldTexts_chadItem, lower_chat]
  simp [positional, mismatchShare_chat_chad]

theorem fieldScores_chapTags :
    fieldScores positional fuseOptions "chat" chapTags = List.replicate 30 (1 / 4) := by
  rw [fieldScores, fieldTexts_chapTags, lower_chat, List.map_replicate]
  simp [positional, mismatchShare_chat_chap]

theorem isMatch_chapTags : isMatch positional fuseOptions "chat" chapTags = true := by
  rw [isMatch_iff, fieldScores_chapTags]
  exact ⟨1 / 4, by simp [List.replicate], by norm_num [fuseOptions]⟩

theorem itemScore_chatItem :
    itemScore positional fuseOptions "chat" chatItem = 1 / 2 ^ 52 := by
  rw [itemScore, fieldTexts_chatItem, lower_chat]
  simp only [positional, fuseOptions, List.map_cons, List.map_nil, fieldWeight_chat_chat,
    fieldWeight_chat_blank]
  norm_num

theorem itemScore_chapItem : itemScore positional fuseOptions "chat" chapItem = 1 / 4 := by
  rw [itemScore, fieldTexts_chapItem, lower_chat]
  simp only [positional, fuseOptions, List.map_cons, List.map_nil, fieldWeight_chat_chap,
    fieldWeight_chat_blank]
  norm_num

theorem itemScore_chadItem : itemScore positional fuseOptions "chat" chadItem = 1 / 4 := by
  rw [itemScore, fieldTexts_chadItem, lower_chat]
  simp only [positional, fuseOptions, List.map_cons, List.map_nil, fieldWeight_chat_chad,
    fieldWeight_chat_blank]
  norm_num

theorem itemScore_chapTags :
    itemScore positional fuseOptions "chat" chapTags = 1 / 4 ^ 30 := by
  rw [itemScore, fieldTexts_chapTags, lower_chat]
  simp only [positional, fuseOptions, List.map_replicate, List.prod_replicate,
    fieldWeight_chat_chap]
  norm_num

theorem isMatch_boundaryItem : isMatch positional fuseOptions "abcde" boundaryItem = true := by
  rw [isMatch_fuseOptions]
  left
  have h1 : lower positional "abcde" = "abcde" := by decide
  have h2 : lower positional boundaryItem.name = "abcxy" := by decide
  rw [h1, h2]
  simp [positional, mismatchShare_boundary]

theorem isMatch_accentItem : isMatch positional fuseOptions "é" accentItem = true := by
  rw [isMatch_fuseOptions]
  left
  have h : lower positional accentItem.name = lower positional "é" := by decide
  rw [h, positional.exact]
  norm_num

/-! ## The fuzzy index: the filter of the page -/

/-- C2, as stated, fails: with the entry `chap` before the entry `chat`, the query
`chat` returns `chat` first, so the result is not a subsequence of the catalog. -/
theorem filter_not_sublist :
    ¬ List.Sublist (filter positional [chapItem, chatItem] "chat") [chapItem, chatItem] := by
  have hlt : itemScore positional fuseOptions "chat" chatItem
      < itemScore positional fuseOptions "chat" chapItem := by
    rw [itemScore_chatItem, itemScore_chapItem]
    norm_num
  have h := (search_lower_then_higher positional fuseOptions "chat" chatItem chapItem
    isMatch_chatItem isMatch_chapItem hlt).2
  have hf : filter positional [chapItem, chatItem] "chat" = [chatItem, chapItem] := by
    simp [filter, filteredAIs, h]
  rw [hf]
  decide

/-- C2, amended: every result of a search is the item at its own position of the
catalog, no position is returned twice, and so the filtered sequence is a rearrangement
of a subsequence of the catalog (its order is the order of the ranking, not the order of
the catalog). -/
theorem filter_subperm (lib : Library) (C : List Item) (q : String) :
    (∀ r ∈ Fuse.search lib fuseOptions C q, C[r.refIndex]? = some r.item) ∧
      ((Fuse.search lib fuseOptions C q).map (fun r => r.refIndex)).Nodup ∧
      (filter lib C q).Subperm C := by
  have hperm := search_pairs_perm lib fuseOptions C q
  have hsub : List.Sublist
      (C.enum.filter (fun p => isMatch lib fuseOptions q p.2)) C.enum :=
    List.filter_sublist _
  refine ⟨fun r hr => (mem_search.mp hr).1, ?_, ?_⟩
  · have h1 := hperm.map Prod.fst
    have h2 := hsub.map Prod.fst
    rw [List.enum_map_fst] at h2
    rw [List.map_map] at h1
    exact h1.nodup_iff.mpr ((List.nodup_range _).sublist h2)
  · by_cases hq : q = ""
    · simp only [filter, filteredAIs, hq, ne_eq, not_true_eq_false, if_false]
      exact List.Subperm.refl C
    · have h1 := hperm.map Prod.snd
      have h2 := hsub.map Prod.snd
      rw [List.enum_map_snd] at h2
      rw [List.map_map] at h1
      have hf : filter lib C q = (Fuse.search lib fuseOptions C q).map
          (Prod.snd ∘ fun r => (r.refIndex, r.item)) := by
        simp [filter, filteredAIs, hq, Function.comp_def]
      rw [hf]
      exact ⟨_, h1.symm, h2⟩

/-- C3, as stated, fails: the name of the entry `chat` is the query itself (score `0`),
every field of the entry `chapTags` is one character away from the query (score `1/4`,
none exact), and yet the query `chat` returns `chapTags` first, for both orders of the
catalog: thirty approximate matches together outrank the single exact one. -/
theorem exact_match_ranked_after :
    positional.dissim (lower positional "chat") (lower positional chatItem.name) = 0 ∧
      (∀ s ∈ fieldScores positional fuseOptions "chat" chapTags, 0 < s ∧ s ≤ 2 / 5) ∧
      filter positional [chatItem, chapTags] "chat" = [chapTags, chatItem] ∧
      filter positional [chapTags, chatItem] "chat" = [chapTags, chatItem] ∧
      filter positional [chatItem, chapTags] "chat" ≠ [chatItem, chapTags] := by
  have hlt : itemScore positional fuseOptions "chat" chapTags
      < itemScore positional fuseOptions "chat" chatItem := by
    rw [itemScore_chatItem, itemScore_chapTags]
    norm_num
  have h := search_lower_then_higher positional fuseOptions "chat" chapTags chatItem
    isMatch_chapTags isMatch_chatItem hlt
  have h1 : filter positional [chatItem, chapTags] "chat" = [chapTags, chatItem] := by
    simp [filter, filteredAIs, h.2]
  have h2 : filter positional [chapTags, chatItem] "chat" = [chapTags, chatItem] := by
    simp [filter, filteredAIs, h.1]
  refine ⟨?_, ?_, h1, h2, ?_⟩
  · have hn : lower positional chatItem.name = "chat" := by decide
    rw [lower_chat, hn]
    exact positional.exact _
  · intro s hs
    rw [fieldScores_chapTags] at hs
    rw [List.eq_of_mem_replicate hs]
    norm_num
  · rw [h1]
    decide

/-- C3, amended: for a non-empty query the filtered sequence is the sequence of the
items of the search results; each result is the item at its position of the catalog;
the results are in ascending order of the dissimilarity of the items, and two results of
equal dissimilarity are in the order of their catalog positions. In particular, when
two matching items `A` and `B` are such that the dissimilarity of `A` is lower than that
of `B`, both `[A, B]` and `[B, A]` are filtered to `[A, B]`. -/
theorem filter_ranked (lib : Library) (C : List Item) (q : String) (hq : q ≠ "") :
    filter lib C q = (Fuse.search lib fuseOptions C q).map (fun r => r.item) ∧
      (∀ r ∈ Fuse.search lib fuseOptions C q, C[r.refIndex]? = some r.item) ∧
      (Fuse.search lib fuseOptions C q).Pairwise (fun r₁ r₂ =>
        itemScore lib fuseOptions q r₁.item < itemScore lib fuseOptions q r₂.item ∨
          (itemScore lib fuseOptions q r₁.item = itemScore lib fuseOptions q r₂.item ∧
            r₁.refIndex < r₂.refIndex)) ∧
      (filter lib C q).Pairwise (fun a b =>
        itemScore lib fuseOptions q a ≤ itemScore lib fuseOptions q b) ∧
      (∀ A B : Item, isMatch lib fuseOptions q A = true → isMatch lib fuseOptions q B = true →
        itemScore lib fuseOptions q A < itemScore lib fuseOptions q B →
        filter lib [A, B] q = [A, B] ∧ filter lib [B, A] q = [A, B]) := by
  have hf : ∀ D : List Item,
      filter lib D q = (Fuse.search lib fuseOptions D q).map (fun r => r.item) := by
    intro D
    simp [filter, filteredAIs, hq]
  have hr := search_ranked lib fuseOptions C q
  refine ⟨hf C, fun r hr => (mem_search.mp hr).1, hr, ?_, ?_⟩
  · rw [hf C, List.pairwise_map]
    refine hr.imp ?_
    intro a b hab
    rcases hab with h | h
    · exact le_of_lt h
    · exact le_of_eq h.1
  · intro A B hA hB hlt
    have h := search_lower_then_higher lib fuseOptions q A B hA hB hlt
    rw [hf, hf, h.1, h.2]
    exact ⟨rfl, rfl⟩

/-- Witness for C3: the example library and the query `chat` over the catalog
`[chap, chat, chad]`. The entries `chap` and `chad` have the same dissimilarity and stay
in catalog order behind `chat`. -/
theorem filter_ranked_witness :
    "chat" ≠ "" ∧
      (Fuse.search positional fuseOptions [chapItem, chatItem, chadItem] "chat").Pairwise
        (fun r₁ r₂ =>
          itemScore positional fuseOptions "chat" r₁.item
              < itemScore positional fuseOptions "chat" r₂.item ∨
            (itemScore positional fuseOptions "chat" r₁.item
                = itemScore positional fuseOptions "chat" r₂.item ∧
              r₁.refIndex < r₂.refIndex)) ∧
      (filter positional [chatItem, chapItem] "chat" = [chatItem, chapItem] ∧
        filter positional [chapItem, chatItem] "chat" = [chatItem, chapItem]) ∧
      itemScore positional fuseOptions "chat" chapItem
        = itemScore positional fuseOptions "chat" chadItem ∧
      filter positional [chapItem, chatItem, chadItem] "chat"
        = [chatItem, chapItem, chadItem] := by
  have hlt : itemScore positional fuseOptions "chat" chatItem
      < itemScore positional fuseOptions "chat" chapItem := by
    rw [itemScore_chatItem, itemScore_chapItem]
    norm_num
  have h := filter_ranked positional [chapItem, chatItem, chadItem] "chat" (by decide)
  refine ⟨by decide, h.2.2.1, h.2.2.2.2 chatItem chapItem isMatch_chatItem isMatch_chapItem hlt,
    by rw [itemScore_chapItem, itemScore_chadItem], ?_⟩
  rw [h.1]
  simp [Fuse.search, candidates, List.enum, List.enumFrom, hit?, isMatch_chatItem,
    isMatch_chapItem, isMatch_chadItem, itemScore_chatItem, itemScore_chapItem,
    itemScore_chadItem, List.insertionSort, List.orderedInsert]
  norm_num

/-- C4, as stated, fails: against the query `abcde` the entry `abcxy` scores exactly
`2/5` on its name and more on its description, so none of its fields is below `0.4`,
and yet it is in the filtered sequence: the threshold itself still matches. -/
theorem boundary_match_included :
    boundaryItem ∈ filter positional [boundaryItem] "abcde" ∧
      ¬ (positional.dissim (lower positional "abcde") (lower positional boundaryItem.name) < 2 / 5 ∨
          positional.dissim (lower positional "abcde") (lower positional boundaryItem.description)
            < 2 / 5 ∨
          ∃ tag ∈ boundaryItem.tags,
            positional.dissim (lower positional "abcde") (lower positional tag) < 2 / 5) := by
  constructor
  · rw [mem_filter_iff (by decide)]
    exact ⟨List.mem_singleton.mpr rfl, isMatch_boundaryItem⟩
  · have h1 : lower positional "abcde" = "abcde" := by decide
    have h2 : lower positional boundaryItem.name = "abcxy" := by decide
    have h3 : lower positional boundaryItem.description = "" := by decide
    rw [h1, h2, h3]
    simp only [positional, mismatchShare_boundary, mismatchShare_boundary_blank, boundaryItem]
    norm_num

/-- C4, amended: for a non-empty query an item of the catalog is in the filtered
sequence exactly when its score is at most `0.4` on its name, on its description or on
one of its tags; so two items of the catalog with the same name, description and tags,
whatever their image and url, are both in the filtered sequence or both out of it. -/
theorem filter_mem_iff_field_at_most (lib : Library) (C : List Item) (q : String)
    (hq : q ≠ "") :
    (∀ item : Item, item ∈ filter lib C q ↔
        item ∈ C ∧
          (lib.dissim (lower lib q) (lower lib item.name) ≤ 2 / 5 ∨
            lib.dissim (lower lib q) (lower lib item.description) ≤ 2 / 5 ∨
            ∃ tag ∈ item.tags, lib.dissim (lower lib q) (lower lib tag) ≤ 2 / 5)) ∧
      (∀ a b : Item, a ∈ C → b ∈ C → a.name = b.name → a.description = b.description →
        a.tags = b.tags → (a ∈ filter lib C q ↔ b ∈ filter lib C q)) := by
  have h : ∀ item : Item, item ∈ filter lib C q ↔
      item ∈ C ∧
        (lib.dissim (lower lib q) (lower lib item.name) ≤ 2 / 5 ∨
          lib.dissim (lower lib q) (lower lib item.description) ≤ 2 / 5 ∨
          ∃ tag ∈ item.tags, lib.dissim (lower lib q) (lower lib tag) ≤ 2 / 5) := by
    intro item
    rw [mem_filter_iff hq, isMatch_fuseOptions]
  refine ⟨h, ?_⟩
  intro a b ha hb hn hd ht
  rw [h a, h b, hn, hd, ht]
  simp [ha, hb]

/-- Witness for C4: the query `abcde` over a catalog holding the entry `abcxy` twice,
the second time with another image and url, and the entry `chat`: `abcxy` is in the
filtered sequence exactly when one of its fields scores at most `2/5`, and its two
copies go together. -/
theorem filter_mem_iff_field_at_most_witness :
    "abcde" ≠ "" ∧
      (boundaryItem ∈ filter positional
          [boundaryItem, { boundaryItem with image := "/c.png", url := "/c" }, chatItem] "abcde" ↔
        boundaryItem ∈
            [boundaryItem, { boundaryItem with image := "/c.png", url := "/c" }, chatItem] ∧
          (positional.dissim (lower positional "abcde") (lower positional boundaryItem.name)
              ≤ 2 / 5 ∨
            positional.dissim (lower positional "abcde")
              (lower positional boundaryItem.description) ≤ 2 / 5 ∨
            ∃ tag ∈ boundaryItem.tags,
              positional.dissim (lower positional "abcde") (lower positional tag) ≤ 2 / 5)) ∧
      (boundaryItem ∈ filter positional
          [boundaryItem, { boundaryItem with image := "/c.png", url := "/c" }, chatItem] "abcde" ↔
        ({ boundaryItem with image := "/c.png", url := "/c" } : Item) ∈ filter positional
          [boundaryItem, { boundaryItem with image := "/c.png", url := "/c" }, chatItem]
          "abcde") :=
  ⟨by decide,
    (filter_mem_iff_field_at_most positional
      [boundaryItem, { boundaryItem with image := "/c.png", url := "/c" }, chatItem] "abcde"
      (by decide)).1 boundaryItem,
    (filter_mem_iff_field_at_most positional
      [boundaryItem, { boundaryItem with image := "/c.png", url := "/c" }, chatItem] "abcde"
      (by decide)).2 boundaryItem { boundaryItem with image := "/c.png", url := "/c" }
      (by simp) (by simp) rfl rfl rfl⟩

/-- C9: two non-empty queries that differ only in the case of their letters, that is,
with the same case folding, give the same filtered sequence; over the catalog of
scenario 1 the query `chatbot` returns the entry named `ChatBot`, whatever the
library. -/
theorem filter_case_insensitive (lib : Library) (C : List Item) (q₁ q₂ : String)
    (h₁ : q₁ ≠ "") (h₂ : q₂ ≠ "") (h : lower lib q₁ = lower lib q₂) :
    filter lib C q₁ = filter lib C q₂ ∧ filter lib [chatBot] "chatbot" = [chatBot] := by
  constructor
  · simp [filter, filteredAIs, h₁, h₂, search_congr_lower lib fuseOptions C h]
  · have hne : "chatbot" ≠ "" := by decide
    simp [filter, filteredAIs, hne,
      search_singleton lib fuseOptions "chatbot" chatBot (isMatch_chatbot lib)]

/-- Witness for C9: the queries `É` and `é` over a catalog holding the entry named
`É`; both return that entry. -/
theorem filter_case_insensitive_witness :
    ("É" ≠ "" ∧ "é" ≠ "" ∧ lower positional "É" = lower positional "é") ∧
      (filter positional [accentItem] "É" = filter positional [accentItem] "é" ∧
        filter positional [chatBot] "chatbot" = [chatBot]) ∧
      filter positional [accentItem] "é" = [accentItem] := by
  refine ⟨⟨by decide, by decide, by decide⟩,
    filter_case_insensitive positional [accentItem] "É" "é" (by decide) (by decide) (by decide),
    ?_⟩
  have hne : "é" ≠ "" := by decide
  simp [filter, filteredAIs, hne,
    search_singleton positional fuseOptions "é" accentItem isMatch_accentItem]

/-! ## The page: handlers, rendering and server-side props -/

theorem run_append (s : State) (es : List Event) (e : Event) :
    run s (es ++ [e]) = step (run s es) e := by
  simp [run, List.foldl_append]

theorem run_searchQuery (s : State) (events : List Event) :
    (run s events).searchQuery
      = ((events.filterMap Event.changeValue?).getLast?).getD s.searchQuery := by
  induction events using List.reverseRecOn with
  | nil => simp [run]
  | append_singleton es e ih =>
    rw [run_append]
    cases e <;>
      simp [step, handleSearch, onFulfilled, onRejected, Event.changeValue?,
        List.filterMap_append, ih]

theorem run_aiData (s : State) (events : List Event) :
    (run s events).aiData
      = ((events.filterMap Event.refreshData?).getLast?).getD s.aiData := by
  induction events using List.reverseRecOn with
  | nil => simp [run]
  | append_singleton es e ih =>
    rw [run_append]
    cases e <;>
      simp [step, handleSearch, onFulfilled, onRejected, Event.refreshData?,
        List.filterMap_append, ih]

theorem cardItems_cards (l : List (Nat × Item)) :
    cardItems (l.map (fun p => GridChild.AICard p.1 p.2)) = l.map Prod.snd := by
  induction l with
  | nil => rfl
  | cons p l ih =>
    simp only [cardItems, List.map_cons, List.filterMap_cons] at ih ⊢
    rw [ih]

/-- C1: for every catalog and every behaviour of the fuzzy index, filtering with the
empty query returns the catalog itself, same elements in the same order; a page whose
query is empty displays exactly its catalog. -/
theorem filteredAIs_empty_query (lib : FuseLib) (C : List Item) (console : List LogLine) :
    filteredAIs lib C "" = C ∧
      displayed lib { searchQuery := "", aiData := .array C, console := console } = some C := by
  simp [filteredAIs, displayed]

/-- C5: when the refresh request rejects, the catalog and the query keep their values,
the displayed sequence and the rendered grid are unchanged, and the only effect is one
line on the console. -/
theorem refresh_rejected_keeps_page (lib : FuseLib) (s : State) (error : String) :
    (step s (.refreshRejected error)).aiData = s.aiData ∧
      (step s (.refreshRejected error)).searchQuery = s.searchQuery ∧
      displayed lib (step s (.refreshRejected error)) = displayed lib s ∧
      HomePage.render lib (step s (.refreshRejected error)) = HomePage.render lib s ∧
      (step s (.refreshRejected error)).console
        = s.console ++ [{ label := "Error fetching AI data:", error := error }] := by
  simp [step, onRejected, displayed, HomePage.render]

/-- C6, as stated, fails: a request that resolves with a body that is not an array of
items replaces the catalog by that body. -/
theorem malformed_body_replaces_catalog :
    ¬ ((step { searchQuery := "", aiData := .array [chatItem], console := [] }
          (.refreshFulfilled { data := .other "Service Unavailable" })).aiData
        = .array [chatItem]) := by
  decide

/-- C6, amended: whenever the refresh request resolves, the catalog becomes the body of
the response, whatever its shape; the query and the console are untouched. -/
theorem refresh_fulfilled_stores_body (s : State) (response : Response) :
    (step s (.refreshFulfilled response)).aiData = response.data ∧
      (step s (.refreshFulfilled response)).searchQuery = s.searchQuery ∧
      (step s (.refreshFulfilled response)).console = s.console := by
  simp [step, onFulfilled]

/-- C7: after any sequence of events the page displays the filter of the data of the
latest fulfilled refresh (the initial snapshot when there is none) by the value of the
latest change event (the empty string when there is none). -/
theorem displayed_after_events (lib : FuseLib) (initial : Data) (events : List Event) :
    (run (HomePage.init { initialAIData := initial }) events).aiData = latestData initial events ∧
      (run (HomePage.init { initialAIData := initial }) events).searchQuery = latestQuery events ∧
      displayed lib (run (HomePage.init { initialAIData := initial }) events)
        = match latestData initial events with
          | .array C => some (filteredAIs lib C (latestQuery events))
          | .other _ => none := by
  have hq := run_searchQuery (HomePage.init { initialAIData := initial }) events
  have hd := run_aiData (HomePage.init { initialAIData := initial }) events
  refine ⟨hd, hq, ?_⟩
  unfold displayed
  rw [hq, hd]
  rfl

/-- C8: the grid holds the empty-state block exactly when the filtered sequence has no
element, and then holds nothing else; otherwise it holds one card per item of the
filtered sequence, in the same order, and no empty-state block. -/
theorem resultGrid_emptyState_iff (filtered : List Item) :
    (emptyView ∈ resultGrid filtered ↔ filtered.length = 0) ∧
      (filtered.length = 0 → resultGrid filtered = [emptyView]) ∧
      (0 < filtered.length →
        (resultGrid filtered).length = filtered.length ∧
        cardItems (resultGrid filtered) = filtered ∧
        ∀ message, GridChild.emptyState message ∉ resultGrid filtered) := by
  refine ⟨?_, ?_, ?_⟩
  · by_cases h : 0 < filtered.length
    · have h0 : filtered.length ≠ 0 := by omega
      simp [resultGrid, h, emptyView, h0]
    · have h0 : filtered.length = 0 := by omega
      simp [resultGrid, h0]
  · intro h
    simp [resultGrid, h]
  · intro h
    simp only [resultGrid, h, gt_iff_lt, if_true]
    refine ⟨by simp, ?_, by simp⟩
    rw [cardItems_cards]
    simp

/-- Witness for C8 at a one-element sequence: the grid is one card, showing the item,
and holds no empty-state block. -/
theorem resultGrid_emptyState_iff_witness :
    0 < [chatItem].length ∧
      (resultGrid [chatItem]).length = [chatItem].length ∧
      cardItems (resultGrid [chatItem]) = [chatItem] ∧
      ∀ message, GridChild.emptyState message ∉ resultGrid [chatItem] :=
  ⟨by decide, (resultGrid_emptyState_iff [chatItem]).2.2 (by decide)⟩

/-- C10: `getServerSideProps` returns props for every outcome of its request: the data
of the response when the request resolves, the empty array when it rejects; a page
mounted with the props of a rejected request has the empty query and the empty catalog
and renders the empty-state block. -/
theorem getServerSideProps_total (lib : FuseLib) :
    (∀ response : Response,
        (getServerSideProps (.ok response)).1.initialAIData = response.data) ∧
      (∀ error : String,
        (getServerSideProps (.error error)).1.initialAIData = .array [] ∧
        (HomePage.init (getServerSideProps (.error error)).1).searchQuery = "" ∧
        (HomePage.init (getServerSideProps (.error error)).1).aiData = .array [] ∧
        HomePage.render lib (HomePage.init (getServerSideProps (.error error)).1)
          = some [emptyView]) := by
  refine ⟨fun _ => rfl, fun _ => ⟨rfl, rfl, rfl, ?_⟩⟩
  simp [getServerSideProps, HomePage.init, HomePage.render, displayed, filteredAIs, resultGrid]

end AiFinder
